import Mathlib

set_option maxRecDepth 8192

/- Shallow embedding of src/Update.py (npm-updater-ai-cli).

   Strings are modelled as Lean `String` (Unicode).  The ASCII fragments of
   Python's whitespace, digit and word-character classes are used; these cover
   the version strings and npm output that the program manipulates.  External
   effects (subprocess results and the outcome of the `json` module) enter as
   explicit parameters of the embedded functions. -/

/-- ASCII whitespace, as stripped by Python `str.strip()` and matched by the
regex class `\s`. -/
def pyIsSpace (c : Char) : Bool :=
  c == ' ' || c == '\t' || c == '\n' || c == '\r' || c == '\x0b' || c == '\x0c'

/-- Remove characters satisfying `p` from both ends of a character list, as
Python `str.strip` does. -/
def pyStripWhile (p : Char → Bool) (l : List Char) : List Char :=
  ((l.dropWhile p).reverse.dropWhile p).reverse

/-- Python `s.strip()` (ASCII whitespace). -/
def pyStrip (s : String) : String :=
  ⟨pyStripWhile pyIsSpace s.data⟩

/-- Python `s.strip(c)`, stripping one fixed character from both ends. -/
def pyStripChar (c : Char) (s : String) : String :=
  ⟨pyStripWhile (fun d => d == c) s.data⟩

/-- Python `s.partition(sep)` for a one-character separator, returning the
text before the first occurrence of `sep` and the text after it.  When `sep`
is absent the second component is empty, exactly as in the caller
`core, _, pre = v.partition(chr)` which ignores the middle component. -/
def pyPartition (sep : Char) : List Char → List Char × List Char
  | [] => ([], [])
  | c :: cs =>
    if c = sep then ([], cs)
    else
      let r := pyPartition sep cs
      (c :: r.1, r.2)

/-- Python `s.split(sep)` for a one-character separator; empty pieces are
kept, and the result is never the empty list (`"".split(sep) == [""]`). -/
def pySplit (sep : Char) : List Char → List (List Char)
  | [] => [[]]
  | c :: cs =>
    let r := pySplit sep cs
    if c = sep then [] :: r
    else
      match r with
      | h :: t => (c :: h) :: t
      | [] => [[c]]

/-- Validate a digit run under Python's underscore rule for integer literals
(single underscores strictly between digits) and return the bare digits. -/
def pyDigitsNoUnderscore : List Char → Option (List Char)
  | [] => some []
  | ['_'] => none
  | '_' :: c :: cs => if c.isDigit then pyDigitsNoUnderscore (c :: cs) else none
  | c :: cs => if c.isDigit then (pyDigitsNoUnderscore cs).map (c :: ·) else none

/-- Numeric value of a list of ASCII digits. -/
def digitsToNat (l : List Char) : Nat :=
  l.foldl (fun a c => a * 10 + (c.toNat - 48)) 0

/-- A nonempty run of ASCII digits (underscores allowed between digits, but
not in front), as accepted by Python `int` after sign handling. -/
def pyDigits? (l : List Char) : Option Nat :=
  match l with
  | [] => none
  | c :: _ => if c.isDigit then (pyDigitsNoUnderscore l).map digitsToNat else none

/-- Python `int(s)` on ASCII input: optional surrounding whitespace, an
optional sign, then a digit run; `none` models the `ValueError`. -/
def pyInt? (l : List Char) : Option Int :=
  match pyStripWhile pyIsSpace l with
  | [] => none
  | c :: rest =>
    if c = '+' then (pyDigits? rest).map Int.ofNat
    else if c = '-' then (pyDigits? rest).map (fun n => -(Int.ofNat n))
    else (pyDigits? (c :: rest)).map Int.ofNat

/-- The `try` block of `parse_semver`: `int(parts[i]) if len(parts) > i
else 0` for the three components, `none` when any `int(...)` raises
`ValueError`. -/
def coreNums? (core : List Char) : Option (Int × Int × Int) :=
  let parts := pySplit '.' core
  let M? := if parts.length > 0 then pyInt? (parts.getD 0 []) else some 0
  let m? := if parts.length > 1 then pyInt? (parts.getD 1 []) else some 0
  let p? := if parts.length > 2 then pyInt? (parts.getD 2 []) else some 0
  match M?, m?, p? with
  | some M, some m, some p => some (M, m, p)
  | _, _, _ => none

/-- `parse_semver` from src/Update.py: split off the pre-release tag at the
first dash, parse up to three dotted numeric components (missing ones default
to zero), collapse to `(0, 0, 0, "z")` when an `int(...)` raises, and replace
an empty pre-release tag by the sentinel `"~"`. -/
def parse_semver (v : String) : Int × Int × Int × String :=
  let pr := pyPartition '-' v.data
  match coreNums? pr.1 with
  | some (M, m, p) => (M, m, p, if pr.2 = [] then "~" else ⟨pr.2⟩)
  | none => (0, 0, 0, "z")

/-- Lexicographic comparison of character lists by code points, which is how
Python compares two `str` values. -/
def charListLt : List Char → List Char → Bool
  | [], [] => false
  | [], _ :: _ => true
  | _ :: _, [] => false
  | a :: as, b :: bs => decide (a < b) || (a == b && charListLt as bs)

/-- Python `<` on strings (lexicographic by code points). -/
def pyStrLt (s t : String) : Bool :=
  charListLt s.data t.data

/-- Python `<` on the result tuples of `parse_semver`: lexicographic on the
four components, with strings compared by code points. -/
def semverLt (a b : Int × Int × Int × String) : Bool :=
  decide (a.1 < b.1) ||
    (a.1 == b.1 && (decide (a.2.1 < b.2.1) ||
      (a.2.1 == b.2.1 && (decide (a.2.2.1 < b.2.2.1) ||
        (a.2.2.1 == b.2.2.1 && pyStrLt a.2.2.2 b.2.2.2)))))

/-- `is_outdated` from src/Update.py. -/
def is_outdated (installed latest : Option String) : Bool :=
  match latest with
  | none => false
  | some lat =>
    match installed with
    | none => true
    | some ins => semverLt (parse_semver ins) (parse_semver lat)

theorem charListLt_iff : ∀ l m : List Char, charListLt l m = true ↔ l < m
  | [], [] => by
    constructor
    · intro h
      exact absurd h (by simp [charListLt])
    · intro h
      cases h
  | [], b :: bs => by
    simp only [charListLt, true_iff]
    exact List.Lex.nil
  | a :: as, [] => by
    constructor
    · intro h
      exact absurd h (by simp [charListLt])
    · intro h
      cases h
  | a :: as, b :: bs => by
    simp only [charListLt, Bool.or_eq_true, Bool.and_eq_true, decide_eq_true_eq,
      beq_iff_eq, charListLt_iff as bs]
    constructor
    · rintro (h | ⟨rfl, h⟩)
      · exact List.Lex.rel h
      · exact List.Lex.cons h
    · intro h
      cases h with
      | cons h => exact Or.inr ⟨rfl, h⟩
      | rel h => exact Or.inl h

theorem pyStrLt_iff (s t : String) : pyStrLt s t = true ↔ s < t := by
  rw [String.lt_iff_toList_lt]
  exact charListLt_iff s.data t.data

/-- Standard lexicographic strict order on `(major, minor, patch,
prerelease)` tuples, stated with `Prod.Lex`. -/
def tupleLexLt (a b : Int × Int × Int × String) : Prop :=
  Prod.Lex (· < ·) (Prod.Lex (· < ·) (Prod.Lex (· < ·) (· < ·))) a b

theorem semverLt_iff_lex (a b : Int × Int × Int × String) :
    semverLt a b = true ↔ tupleLexLt a b := by
  obtain ⟨a1, a2, a3, a4⟩ := a
  obtain ⟨b1, b2, b3, b4⟩ := b
  simp only [semverLt, tupleLexLt, Bool.or_eq_true, Bool.and_eq_true,
    decide_eq_true_eq, beq_iff_eq, pyStrLt_iff]
  constructor
  · rintro (h | ⟨rfl, h | ⟨rfl, h | ⟨rfl, h⟩⟩⟩)
    · exact Prod.Lex.left _ _ h
    · exact Prod.Lex.right _ (Prod.Lex.left _ _ h)
    · exact Prod.Lex.right _ (Prod.Lex.right _ (Prod.Lex.left _ _ h))
    · exact Prod.Lex.right _ (Prod.Lex.right _ (Prod.Lex.right _ h))
  · rintro (⟨_, _, h⟩ | ⟨_, h⟩)
    · exact Or.inl h
    · refine Or.inr ⟨rfl, ?_⟩
      rcases h with ⟨_, _, h⟩ | ⟨_, h⟩
      · exact Or.inl h
      · refine Or.inr ⟨rfl, ?_⟩
        rcases h with ⟨_, _, h⟩ | ⟨_, h⟩
        · exact Or.inl h
        · exact Or.inr ⟨rfl, h⟩

theorem pyPartition_eq_of_not_mem (sep : Char) :
    ∀ l : List Char, sep ∉ l → pyPartition sep l = (l, [])
  | [], _ => rfl
  | c :: cs, h => by
    have hc : ¬ c = sep := fun hh => h (hh ▸ List.mem_cons_self c cs)
    simp [pyPartition, hc,
      pyPartition_eq_of_not_mem sep cs (fun hm => h (List.mem_cons_of_mem c hm))]

theorem pyPartition_append (sep : Char) :
    ∀ l m : List Char, sep ∉ l → pyPartition sep (l ++ sep :: m) = (l, m)
  | [], m, _ => by simp [pyPartition]
  | c :: cs, m, h => by
    have hc : ¬ c = sep := fun hh => h (hh ▸ List.mem_cons_self c cs)
    simp [pyPartition, hc,
      pyPartition_append sep cs m (fun hm => h (List.mem_cons_of_mem c hm))]

theorem not_mem_pyPartition_fst (sep : Char) :
    ∀ l : List Char, sep ∉ (pyPartition sep l).1
  | [] => by simp [pyPartition]
  | c :: cs => by
    by_cases hc : c = sep
    · simp [pyPartition, hc]
    · simp only [pyPartition, if_neg hc]
      intro hmem
      rcases List.mem_cons.mp hmem with h | h
      · exact hc h.symm
      · exact not_mem_pyPartition_fst sep cs h

theorem pySplit_ne_nil (sep : Char) : ∀ l : List Char, pySplit sep l ≠ []
  | [] => by simp [pySplit]
  | c :: cs => by
    by_cases hc : c = sep
    · simp [pySplit, hc]
    · simp only [pySplit, if_neg hc]
      rcases h : pySplit sep cs with _ | ⟨hd, tl⟩
      · exact absurd h (pySplit_ne_nil sep cs)
      · simp

theorem mem_of_mem_pySplit (sep : Char) :
    ∀ (l part : List Char), part ∈ pySplit sep l → ∀ {c}, c ∈ part → c ∈ l
  | [], part, hp, c, hc => by
    simp [pySplit] at hp
    subst hp
    cases hc
  | a :: as, part, hp, c, hc => by
    by_cases ha : a = sep
    · simp only [pySplit, if_pos ha] at hp
      rcases List.mem_cons.mp hp with h | h
      · subst h
        cases hc
      · exact List.mem_cons_of_mem a (mem_of_mem_pySplit sep as part h hc)
    · simp only [pySplit, if_neg ha] at hp
      rcases hr : pySplit sep as with _ | ⟨hd, tl⟩
      · exact absurd hr (pySplit_ne_nil sep as)
      · rw [hr] at hp
        rcases List.mem_cons.mp hp with h | h
        · subst h
          rcases List.mem_cons.mp hc with h1 | h1
          · exact h1 ▸ List.mem_cons_self a as
          · exact List.mem_cons_of_mem a
              (mem_of_mem_pySplit sep as hd (hr ▸ List.mem_cons_self hd tl) h1)
        · exact List.mem_cons_of_mem a
            (mem_of_mem_pySplit sep as part (hr ▸ List.mem_cons_of_mem hd h) hc)

theorem mem_of_mem_pyStripWhile {p : Char → Bool} {l : List Char} {c : Char}
    (h : c ∈ pyStripWhile p l) : c ∈ l := by
  unfold pyStripWhile at h
  rw [List.mem_reverse] at h
  have h1 := (List.dropWhile_sublist _).mem h
  rw [List.mem_reverse] at h1
  exact (List.dropWhile_sublist _).mem h1

theorem pyInt?_nonneg {l : List Char} (hm : '-' ∉ l) {n : Int}
    (h : pyInt? l = some n) : 0 ≤ n := by
  unfold pyInt? at h
  split at h
  · cases h
  · rename_i c rest ht
    have hc : ¬ c = '-' := by
      intro hh
      refine hm (mem_of_mem_pyStripWhile (p := pyIsSpace) ?_)
      rw [ht, ← hh]
      exact List.mem_cons_self c rest
    split at h
    · obtain ⟨k, _, rfl⟩ := Option.map_eq_some'.mp h
      exact Int.natCast_nonneg k
    · obtain ⟨k, _, rfl⟩ := Option.map_eq_some'.mp h
      exact Int.natCast_nonneg k

theorem component_nonneg {core : List Char} (hd : '-' ∉ core) (i : Nat) {n : Int}
    (h : (if (pySplit '.' core).length > i
            then pyInt? ((pySplit '.' core).getD i [])
            else some 0) = some n) :
    0 ≤ n := by
  split at h
  · rename_i hlen
    have hmem : (pySplit '.' core).getD i [] ∈ pySplit '.' core := by
      rw [List.getD_eq_getElem _ _ hlen]
      exact List.getElem_mem _
    have hni : '-' ∉ (pySplit '.' core).getD i [] := fun hc =>
      hd (mem_of_mem_pySplit '.' core _ hmem hc)
    exact pyInt?_nonneg hni h
  · cases h
    exact le_refl 0

theorem coreNums?_nonneg {core : List Char} (hd : '-' ∉ core)
    {M m p : Int} (h : coreNums? core = some (M, m, p)) :
    0 ≤ M ∧ 0 ≤ m ∧ 0 ≤ p := by
  simp only [coreNums?] at h
  rcases h0 : (if (pySplit '.' core).length > 0
      then pyInt? ((pySplit '.' core).getD 0 []) else some 0) with _ | M' <;>
    rw [h0] at h
  · cases h
  rcases h1 : (if (pySplit '.' core).length > 1
      then pyInt? ((pySplit '.' core).getD 1 []) else some 0) with _ | m' <;>
    rw [h1] at h
  · cases h
  rcases h2 : (if (pySplit '.' core).length > 2
      then pyInt? ((pySplit '.' core).getD 2 []) else some 0) with _ | p' <;>
    rw [h2] at h
  · cases h
  cases h
  exact ⟨component_nonneg hd 0 h0, component_nonneg hd 1 h1, component_nonneg hd 2 h2⟩

theorem semverLt_sentinel_lt {M m p : Int} (hM : 0 ≤ M) (hm : 0 ≤ m) (hp : 0 ≤ p) :
    semverLt (0, 0, 0, "z") (M, m, p, "~") = true := by
  rw [semverLt_iff_lex]
  unfold tupleLexLt
  rcases hM.lt_or_eq with h1 | h1
  · exact Prod.Lex.left _ _ h1
  · subst h1
    refine Prod.Lex.right _ ?_
    rcases hm.lt_or_eq with h2 | h2
    · exact Prod.Lex.left _ _ h2
    · subst h2
      refine Prod.Lex.right _ ?_
      rcases hp.lt_or_eq with h3 | h3
      · exact Prod.Lex.left _ _ h3
      · subst h3
        exact Prod.Lex.right _ ((pyStrLt_iff "z" "~").mp (by decide))

/-- C1: `is_outdated` never reports outdated when the latest version is
absent, always does when latest is present but the installed version is
absent, and otherwise holds exactly when the `parse_semver` tuple of the
installed version is strictly below that of the latest under lexicographic
comparison; the four examples from the spec evaluate as stated. -/
theorem C1_is_outdated_ordering :
    (∀ installed : Option String, is_outdated installed none = false) ∧
    (∀ lat : String, is_outdated none (some lat) = true) ∧
    (∀ ins lat : String,
        (is_outdated (some ins) (some lat) = true ↔
          tupleLexLt (parse_semver ins) (parse_semver lat))) ∧
    is_outdated none (some "1.0.0") = true ∧
    is_outdated (some "1.0.0") none = false ∧
    is_outdated (some "1.0.0") (some "1.0.0") = false ∧
    is_outdated (some "1.0.0") (some "1.0.1") = true := by
  refine ⟨fun installed => rfl, fun lat => rfl,
    fun ins lat => semverLt_iff_lex _ _, by decide, rfl, by decide, by decide⟩

/-- C2 counterexample: the pre-release tag "~~" sorts above the missing-tag
sentinel "~", so parse_semver "2.0.0-~~" ranks strictly above, not strictly
below, parse_semver "2.0.0", refuting the claim for every pre-release tag. -/
theorem C2_counterexample :
    semverLt (parse_semver "2.0.0-~~") (parse_semver "2.0.0") = false ∧
    semverLt (parse_semver "2.0.0") (parse_semver "2.0.0-~~") = true := by
  decide

/-- C2 (amended): for a version whose dash-free core parses numerically and
whose pre-release tag is nonempty and lexicographically below the sentinel
"~" (true of every tag built from alphanumerics, dots and hyphens), the
pre-release version ranks strictly below the bare release version. -/
theorem C2_prerelease_below_release (core pre : String)
    (hdash : '-' ∉ core.data) (hpre : pre ≠ "")
    (hlt : pre < "~")
    (hok : (coreNums? core.data).isSome = true) :
    semverLt (parse_semver (core ++ "-" ++ pre)) (parse_semver core) = true := by
  obtain ⟨⟨M, m, p⟩, hM⟩ := Option.isSome_iff_exists.mp hok
  obtain ⟨lpre⟩ := pre
  have hne : lpre ≠ [] := fun h => hpre (by rw [h])
  have hdata : (core ++ "-" ++ String.mk lpre).data = core.data ++ '-' :: lpre := by
    simp [String.data_append]
  have hl : parse_semver (core ++ "-" ++ String.mk lpre) = (M, m, p, ⟨lpre⟩) := by
    simp only [parse_semver]
    rw [hdata, pyPartition_append '-' core.data lpre hdash]
    simp [hM, hne]
  have hr : parse_semver core = (M, m, p, "~") := by
    simp [parse_semver, pyPartition_eq_of_not_mem '-' core.data hdash, hM]
  rw [hl, hr, semverLt_iff_lex]
  unfold tupleLexLt
  exact Prod.Lex.right _ (Prod.Lex.right _ (Prod.Lex.right _ hlt))

theorem C2_witness :
    semverLt (parse_semver "2.0.0-beta") (parse_semver "2.0.0") = true :=
  C2_prerelease_below_release "2.0.0" "beta" (by decide) (by decide)
    ((pyStrLt_iff "beta" "~").mp (by decide)) (by decide)

/-- C3 counterexample: in "1.x.2" the components do not default to zero
independently: the non-numeric minor component collapses the whole parse, so
the (numeric) major component comes out 0, not 1. -/
theorem C3_counterexample :
    parse_semver "1.x.2" = (0, 0, 0, "z") ∧ (parse_semver "1.x.2").1 ≠ 1 := by
  decide

/-- C3 (amended): missing components default to zero independently ("1.2" has
patch 0, "1" has minor and patch 0), but any non-numeric component collapses
the whole result to (0, 0, 0, "z"); in particular parse_semver "bad" is
(0, 0, 0, "z"). -/
theorem C3_default_and_collapse :
    parse_semver "1.2" = (1, 2, 0, "~") ∧
    parse_semver "1" = (1, 0, 0, "~") ∧
    parse_semver "bad" = (0, 0, 0, "z") ∧
    (∀ v : String, coreNums? (pyPartition '-' v.data).1 = none →
      parse_semver v = (0, 0, 0, "z")) := by
  refine ⟨by decide, by decide, by decide, fun v hv => ?_⟩
  simp [parse_semver, hv]

theorem C3_witness : parse_semver "x.y" = (0, 0, 0, "z") :=
  C3_default_and_collapse.2.2.2 "x.y" (by decide)

/-- C9: a version string whose numeric core fails to parse gets the tuple
(0, 0, 0, "z"), which ranks strictly below the tuple of every version whose
core parses and which carries no pre-release suffix — so a malformed
installed version is always outdated against such a latest version. -/
theorem C9_malformed_below_release (s r : String)
    (hs : coreNums? (pyPartition '-' s.data).1 = none)
    (hr : (coreNums? (pyPartition '-' r.data).1).isSome = true)
    (hnopre : (pyPartition '-' r.data).2 = []) :
    semverLt (parse_semver s) (parse_semver r) = true ∧
    is_outdated (some s) (some r) = true := by
  obtain ⟨⟨M, m, p⟩, hM⟩ := Option.isSome_iff_exists.mp hr
  have hps : parse_semver s = (0, 0, 0, "z") := by
    simp [parse_semver, hs]
  have hpr : parse_semver r = (M, m, p, "~") := by
    simp [parse_semver, hM, hnopre]
  obtain ⟨h1, h2, h3⟩ := coreNums?_nonneg (not_mem_pyPartition_fst '-' r.data) hM
  have key : semverLt (parse_semver s) (parse_semver r) = true := by
    rw [hps, hpr]
    exact semverLt_sentinel_lt h1 h2 h3
  exact ⟨key, key⟩

theorem C9_witness :
    semverLt (parse_semver "bad") (parse_semver "0.0.0") = true ∧
    is_outdated (some "bad") (some "0.0.0") = true :=
  C9_malformed_below_release "bad" "0.0.0" (by decide) (by decide) (by decide)

/-- Values decoded by Python's `json` module, as this program consumes them:
objects are association lists whose keys `json.loads` guarantees distinct,
and numbers are modelled as integers (the data this program decodes — version
strings and package listings — carries no floating-point numbers). -/
inductive PyJson where
  | null
  | bool (b : Bool)
  | int (n : Int)
  | str (s : String)
  | arr (items : List PyJson)
  | obj (fields : List (String × PyJson))

mutual

/-- Python `repr()` of a decoded JSON value (scalars exact; string escaping
modelled for quote-free printable content, all this program ever prints). -/
def pyRepr : PyJson → String
  | .null => "None"
  | .bool true => "True"
  | .bool false => "False"
  | .int n => toString n
  | .str s => "\x27" ++ s ++ "\x27"
  | .arr items => "[" ++ pyReprSeq items ++ "]"
  | .obj fields => "\x7b" ++ pyReprFields fields ++ "\x7d"

def pyReprSeq : List PyJson → String
  | [] => ""
  | [v] => pyRepr v
  | v :: rest => pyRepr v ++ ", " ++ pyReprSeq rest

def pyReprFields : List (String × PyJson) → String
  | [] => ""
  | [(k, v)] => "\x27" ++ k ++ "\x27: " ++ pyRepr v
  | (k, v) :: rest => "\x27" ++ k ++ "\x27: " ++ pyRepr v ++ ", " ++ pyReprFields rest

end

/-- Python `str()` of a decoded JSON value: the string itself for strings,
`repr` otherwise (as `str(data)` behaves on decoded JSON). -/
def pyStr : PyJson → String
  | .str s => s
  | v => pyRepr v

/-- Python `dict.get(k)` on a decoded JSON object. -/
def lookupField (fields : List (String × PyJson)) (k : String) : Option PyJson :=
  match fields with
  | [] => none
  | (k1, v) :: rest => if k1 = k then some v else lookupField rest k

/-- `get_latest_version` from src/Update.py, embedded over the process result
`(rc, out)` of `npm view pkg version --json` (the captured stderr is unused
by the source) and over `loads`, the outcome of `json.loads` on each output
(`none` models `json.JSONDecodeError`).  `none` is Python's `None`. -/
def get_latest_version (loads : String → Option PyJson) (rc : Int) (out : String) :
    Option String :=
  if rc = 0 ∧ out ≠ "" then
    match loads out with
    | some (.str s) => some (pyStrip s)
    | some d => some (pyStr d)
    | none => some (pyStripChar '"' (pyStrip out))
  else none

/-- C4 counterexample: with exit code 0 and nonempty output that fails JSON
decoding, get_latest_version returns the stripped output itself — not the
absence the claim requires for unparsable output. -/
theorem C4_counterexample :
    get_latest_version (fun _ => none) 0 "not json" = some "not json" ∧
    (some "not json" : Option String) ≠ none := by
  decide

/-- C4 (amended): the lookup returns absence exactly on non-zero exit or
empty output and never raises; with exit 0 and nonempty output it always
returns a value — the decoded string stripped, or, on a JSON decode failure,
the output stripped of whitespace and of double quotes. -/
theorem C4_latest_version_failures (loads : String → Option PyJson)
    (rc : Int) (out : String) :
    (rc ≠ 0 ∨ out = "" → get_latest_version loads rc out = none) ∧
    (rc = 0 → out ≠ "" → loads out = none →
      get_latest_version loads rc out = some (pyStripChar '"' (pyStrip out))) ∧
    (∀ s, rc = 0 → out ≠ "" → loads out = some (.str s) →
      get_latest_version loads rc out = some (pyStrip s)) ∧
    (rc = 0 → out ≠ "" → get_latest_version loads rc out ≠ none) := by
  refine ⟨?_, ?_, ?_, ?_⟩
  · intro h
    have hc : ¬ (rc = 0 ∧ out ≠ "") := by
      rintro ⟨h1, h2⟩
      rcases h with h | h
      · exact h h1
      · exact h2 h
    unfold get_latest_version
    rw [if_neg hc]
  · intro h1 h2 h3
    unfold get_latest_version
    rw [if_pos ⟨h1, h2⟩, h3]
  · intro s h1 h2 h3
    unfold get_latest_version
    rw [if_pos ⟨h1, h2⟩, h3]
  · intro h1 h2
    unfold get_latest_version
    rw [if_pos ⟨h1, h2⟩]
    rcases h : loads out with _ | d
    · simp
    · cases d <;> simp

theorem C4_witness :
    get_latest_version (fun _ => none) 0 "\"1.2.3" = some "1.2.3" :=
  ((C4_latest_version_failures (fun _ => none) 0 "\"1.2.3").2.1
    rfl (by decide) rfl).trans (by decide)

/-- Printed warnings and the returned name-to-version map of
`get_installed_global_map`. -/
structure MapResult where
  warnings : List String
  map : List (String × String)
deriving DecidableEq

/-- The `for name, info in deps.items()` loop of `get_installed_global_map`:
keep an entry when its info is an object whose "version" field is a string
(`json.loads` yields distinct keys, so `result[name] = ...` is an append). -/
def buildResult : List (String × PyJson) → List (String × String)
  | [] => []
  | (name, info) :: rest =>
    match info with
    | .obj kvs =>
      match lookupField kvs "version" with
      | some (.str v) => (name, v) :: buildResult rest
      | _ => buildResult rest
    | _ => buildResult rest

/-- The argument `out or "..."` that `get_installed_global_map` passes to
`json.loads`: empty output falls back to the literal two-brace object text. -/
def lsLoadsArg (out : String) : String :=
  if out = "" then "\x7b\x7d" else out

/-- `data.get("dependencies", default) if isinstance(data, dict) else default`
with the default being an empty object. -/
def depsOf (data : PyJson) : PyJson :=
  match data with
  | .obj fields => (lookupField fields "dependencies").getD (.obj [])
  | _ => .obj []

/-- `get_installed_global_map` from src/Update.py, embedded over the process
result `(rc, out, err)` of `npm ls -g --depth=0 --json` and the `json.loads`
outcome `loads`.  The value is `none` when the Python function would raise
(the `AttributeError` from `deps.items()` when the decoded "dependencies"
value is not an object); otherwise it carries the warnings printed and the
returned map. -/
def get_installed_global_map (loads : String → Option PyJson)
    (rc : Int) (out err : String) : Option MapResult :=
  if rc ≠ 0 ∧ err ≠ "" then
    some ⟨["Warning: could not read global package list: " ++ err], []⟩
  else
    match loads (lsLoadsArg out) with
    | none => some ⟨["Warning: unexpected output from \x27npm ls -g --json\x27."], []⟩
    | some data =>
      match depsOf data with
      | .obj depFields => some ⟨[], buildResult depFields⟩
      | _ => none

theorem mem_buildResult :
    ∀ (depFields : List (String × PyJson)) (n v : String),
      (n, v) ∈ buildResult depFields →
      ∃ kvs, (n, PyJson.obj kvs) ∈ depFields ∧
        lookupField kvs "version" = some (.str v)
  | [], n, v, h => by cases h
  | (name, info) :: rest, n, v, h => by
    have step : (n, v) ∈ buildResult rest →
        ∃ kvs, (n, PyJson.obj kvs) ∈ (name, info) :: rest ∧
          lookupField kvs "version" = some (.str v) := by
      intro hr
      obtain ⟨kvs, hk1, hk2⟩ := mem_buildResult rest n v hr
      exact ⟨kvs, List.mem_cons_of_mem _ hk1, hk2⟩
    cases info with
    | obj kvs =>
      rw [buildResult] at h
      split at h
      · rename_i v2 hver
        rcases List.mem_cons.mp h with h1 | h1
        · simp only [Prod.mk.injEq] at h1
          obtain ⟨rfl, rfl⟩ := h1
          exact ⟨kvs, List.mem_cons_self _ _, hver⟩
        · exact step h1
      · exact step h
    | null =>
      rw [buildResult] at h
      · exact step h
      · intro kvs hh
        exact PyJson.noConfusion hh
    | bool b =>
      rw [buildResult] at h
      · exact step h
      · intro kvs hh
        exact PyJson.noConfusion hh
    | int i =>
      rw [buildResult] at h
      · exact step h
      · intro kvs hh
        exact PyJson.noConfusion hh
    | str s =>
      rw [buildResult] at h
      · exact step h
      · intro kvs hh
        exact PyJson.noConfusion hh
    | arr items =>
      rw [buildResult] at h
      · exact step h
      · intro kvs hh
        exact PyJson.noConfusion hh

theorem eq_of_mem_of_nodup_keys :
    ∀ (l : List (String × PyJson)) (n : String) (a b : PyJson),
      (l.map Prod.fst).Nodup → (n, a) ∈ l → (n, b) ∈ l → a = b
  | [], _, _, _, _, h, _ => by cases h
  | (k, c) :: rest, n, a, b, hnd, ha, hb => by
    rw [List.map_cons, List.nodup_cons] at hnd
    obtain ⟨hnd1, hnd2⟩ := hnd
    rcases List.mem_cons.mp ha with h1 | h1 <;> rcases List.mem_cons.mp hb with h2 | h2
    · simp only [Prod.mk.injEq] at h1 h2
      exact h1.2.trans h2.2.symm
    · simp only [Prod.mk.injEq] at h1
      exact absurd (List.mem_map.mpr ⟨(n, b), h2, h1.1⟩) hnd1
    · simp only [Prod.mk.injEq] at h2
      exact absurd (List.mem_map.mpr ⟨(n, a), h1, h2.1⟩) hnd1
    · exact eq_of_mem_of_nodup_keys rest n a b hnd2 h1 h2

theorem not_mem_buildResult
    (depFields : List (String × PyJson)) (n : String) (info : PyJson)
    (hnd : (depFields.map Prod.fst).Nodup)
    (hmem : (n, info) ∈ depFields)
    (hbad : ∀ kvs, info = PyJson.obj kvs →
      ∀ v, lookupField kvs "version" ≠ some (.str v))
    (v : String) : (n, v) ∉ buildResult depFields := by
  intro hin
  obtain ⟨kvs, hk1, hk2⟩ := mem_buildResult depFields n v hin
  have hueq : PyJson.obj kvs = info :=
    eq_of_mem_of_nodup_keys depFields n _ _ hnd hk1 hmem
  exact hbad kvs hueq.symm v hk2

theorem mem_map_of_get_installed
    {loads : String → Option PyJson} {rc : Int} {out err : String}
    {res : MapResult}
    (hres : get_installed_global_map loads rc out err = some res)
    {n v : String} (hmem : (n, v) ∈ res.map) :
    ∃ fields depFields kvs,
      loads (lsLoadsArg out) = some (.obj fields) ∧
      lookupField fields "dependencies" = some (.obj depFields) ∧
      (n, PyJson.obj kvs) ∈ depFields ∧
      lookupField kvs "version" = some (.str v) := by
  unfold get_installed_global_map at hres
  split at hres
  · cases hres
    cases hmem
  · split at hres
    · cases hres
      cases hmem
    · rename_i data hload
      split at hres
      · rename_i depFields hdeps
        cases hres
        obtain ⟨kvs, hk1, hk2⟩ := mem_buildResult depFields n v hmem
        cases data with
        | obj fields =>
          simp only [depsOf] at hdeps
          rcases hdep : lookupField fields "dependencies" with _ | d
          · rw [hdep, Option.getD_none] at hdeps
            injection hdeps with h
            subst h
            cases hk1
          · rw [hdep, Option.getD_some] at hdeps
            subst hdeps
            exact ⟨fields, depFields, kvs, hload, hdep, hk1, hk2⟩
        | null =>
          simp only [depsOf] at hdeps
          injection hdeps with h
          subst h
          cases hk1
        | bool b =>
          simp only [depsOf] at hdeps
          injection hdeps with h
          subst h
          cases hk1
        | int k =>
          simp only [depsOf] at hdeps
          injection hdeps with h
          subst h
          cases hk1
        | str s =>
          simp only [depsOf] at hdeps
          injection hdeps with h
          subst h
          cases hk1
        | arr items =>
          simp only [depsOf] at hdeps
          injection hdeps with h
          subst h
          cases hk1
      · cases hres

/-- C7: the inventory reader parses the structured global listing into a
name-to-version map — a listing whose dependencies hold pkg-a at some version
yields exactly that one-entry map — and on a JSON decode failure, or on
non-zero exit with nonempty error text, it prints a warning and returns the
empty map instead of raising. -/
theorem C7_inventory_reader (loads : String → Option PyJson)
    (rc : Int) (out err : String) :
    (rc ≠ 0 → err ≠ "" →
      get_installed_global_map loads rc out err =
        some ⟨["Warning: could not read global package list: " ++ err], []⟩) ∧
    (¬(rc ≠ 0 ∧ err ≠ "") → loads (lsLoadsArg out) = none →
      get_installed_global_map loads rc out err =
        some ⟨["Warning: unexpected output from \x27npm ls -g --json\x27."], []⟩) ∧
    (∀ ver : String, ¬(rc ≠ 0 ∧ err ≠ "") →
      loads (lsLoadsArg out) =
        some (.obj [("dependencies",
          .obj [("pkg-a", .obj [("version", .str ver)])])]) →
      get_installed_global_map loads rc out err = some ⟨[], [("pkg-a", ver)]⟩) := by
  refine ⟨?_, ?_, ?_⟩
  · intro h1 h2
    unfold get_installed_global_map
    rw [if_pos ⟨h1, h2⟩]
  · intro h1 h2
    unfold get_installed_global_map
    rw [if_neg h1, h2]
  · intro ver h1 h2
    unfold get_installed_global_map
    rw [if_neg h1, h2]
    rfl

theorem C7_witness :
    get_installed_global_map
      (fun _ => some (.obj [("dependencies",
        .obj [("pkg-a", .obj [("version", .str "1.0.0")])])])) 0 "x" "" =
      some ⟨[], [("pkg-a", "1.0.0")]⟩ :=
  (C7_inventory_reader _ 0 "x" "").2.2 "1.0.0" (fun h => h.1 rfl) rfl

/-- C10: every entry of a returned map is sourced from the decoded listing's
"dependencies" object at an info object whose "version" field is a string
value; an entry whose info fails that test contributes nothing to the map
(dict keys being distinct); and a non-object top-level decode yields the
empty map with no warning printed. -/
theorem C10_map_entry_provenance :
    (∀ (loads : String → Option PyJson) (rc : Int) (out err : String)
        (res : MapResult),
      get_installed_global_map loads rc out err = some res →
      ∀ n v, (n, v) ∈ res.map →
        ∃ fields depFields kvs,
          loads (lsLoadsArg out) = some (.obj fields) ∧
          lookupField fields "dependencies" = some (.obj depFields) ∧
          (n, PyJson.obj kvs) ∈ depFields ∧
          lookupField kvs "version" = some (.str v)) ∧
    (∀ (depFields : List (String × PyJson)) (n : String) (info : PyJson),
      (depFields.map Prod.fst).Nodup →
      (n, info) ∈ depFields →
      (∀ kvs, info = PyJson.obj kvs →
        ∀ v, lookupField kvs "version" ≠ some (.str v)) →
      ∀ v, (n, v) ∉ buildResult depFields) ∧
    (∀ (loads : String → Option PyJson) (rc : Int) (out err : String)
        (data : PyJson),
      ¬(rc ≠ 0 ∧ err ≠ "") → loads (lsLoadsArg out) = some data →
      (∀ fields, data ≠ PyJson.obj fields) →
      get_installed_global_map loads rc out err = some ⟨[], []⟩) := by
  refine ⟨fun loads rc out err res hres n v hmem =>
      mem_map_of_get_installed hres hmem,
    not_mem_buildResult, ?_⟩
  intro loads rc out err data h1 h2 h3
  unfold get_installed_global_map
  rw [if_neg h1, h2]
  cases data with
  | obj fields => exact absurd rfl (h3 fields)
  | null => rfl
  | bool b => rfl
  | int k => rfl
  | str s => rfl
  | arr items => rfl

theorem C10_witness :
    get_installed_global_map (fun _ => some (.arr [])) 0 "x" "" =
      some ⟨[], []⟩ :=
  C10_map_entry_provenance.2.2 (fun _ => some (.arr [])) 0 "x" ""
    (PyJson.arr []) (fun h => h.1 rfl) rfl
    (fun _ h => PyJson.noConfusion h)

/-- The regex class `\w` (ASCII fragment, ample for npm output). -/
def pyIsWord (c : Char) : Bool :=
  c.isAlphanum || c == '_'

/-- The class `[0-9.]` of _CHANGED_RE's time token. -/
def isNumDot (c : Char) : Bool :=
  c.isDigit || c == '.'

/-- Consume a literal, one character at a time, case-insensitively
(`re.IGNORECASE`); `none` on mismatch, else the remainder. -/
def matchLitCI : List Char → List Char → Option (List Char)
  | [], l => some l
  | _ :: _, [] => none
  | p :: ps, c :: cs => if c.toLower = p.toLower then matchLitCI ps cs else none

/-- `\s+`: at least one whitespace character, consumed greedily (a maximal
run, equivalent to the engine's backtracking since every following atom of
the pattern rejects whitespace). -/
def matchWs1 : List Char → Option (List Char)
  | c :: cs => if pyIsSpace c then some (cs.dropWhile pyIsSpace) else none
  | [] => none

/-- `(\d+)`: a maximal nonempty digit run and the remainder (again equivalent
to backtracking, as `\s` rejects digits). -/
def matchDigits1 (l : List Char) : Option (List Char × List Char) :=
  match l with
  | c :: _ =>
    if c.isDigit then some (l.takeWhile Char.isDigit, l.dropWhile Char.isDigit)
    else none
  | [] => none

/-- Head of the list is a `\w` character. -/
def headIsWord : List Char → Bool
  | c :: _ => pyIsWord c
  | [] => false

/-- Backtracking between the greedy `[0-9.]+` (first argument: the class run
consumed so far, reversed) and the following `\w+`: give characters back to
the remainder until `\w+` can take at least one; the value is the text of
`[0-9.]+\w+`. -/
def timeBacktrack : List Char → List Char → Option (List Char)
  | [], _ => none
  | d :: rrun, rest =>
    if headIsWord rest then
      some ((d :: rrun).reverse ++ rest.takeWhile pyIsWord)
    else
      timeBacktrack rrun (d :: rest)

/-- Match `[0-9.]+\w+` (the content of group 2) at the head of `l`. -/
def matchTimeToken (l : List Char) : Option (List Char) :=
  timeBacktrack (l.takeWhile isNumDot).reverse (l.dropWhile isNumDot)

/-- Attempt `in\s+[0-9.]+\w+` at the head of `l`. -/
def tryTimeAt (l : List Char) : Option (List Char) :=
  match matchLitCI ['i', 'n'] l with
  | some r1 =>
    match matchWs1 r1 with
    | some r2 => matchTimeToken r2
    | none => none
  | none => none

/-- The optional tail `(?:.*?in\s+([0-9.]+\w+))?` of _CHANGED_RE: under
`re.DOTALL` the lazy `.*?` makes this the earliest position at which
`in\s+[0-9.]+\w+` matches; `none` when no position works (the optional group
then matches empty and group 2 is Python's `None`). -/
def findTime : List Char → Option (List Char)
  | [] => none
  | c :: cs =>
    match tryTimeAt (c :: cs) with
    | some t => some t
    | none => findTime cs

/-- The body of `_CHANGED_RE`, i.e.
`changed\s+(\d+)\s+packages?(?:.*?in\s+([0-9.]+\w+))?`, attempted at the head
of `l`: the value is group 1 as a number together with group 2. -/
def changedMatchAt (l : List Char) : Option (Nat × Option String) :=
  match matchLitCI "changed".data l with
  | none => none
  | some r1 =>
    match matchWs1 r1 with
    | none => none
    | some r2 =>
      match matchDigits1 r2 with
      | none => none
      | some (ds, r3) =>
        match matchWs1 r3 with
        | none => none
        | some r4 =>
          match matchLitCI "package".data r4 with
          | none => none
          | some r5 =>
            let r6 := match r5 with
              | c :: cs => if c.toLower = 's' then cs else r5
              | [] => r5
            some (digitsToNat ds, (findTime r6).map (fun t => (⟨t⟩ : String)))

/-- `_CHANGED_RE.search(out)`: the leftmost position whose match succeeds. -/
def changedSearch : List Char → Option (Nat × Option String)
  | [] => none
  | c :: cs =>
    match changedMatchAt (c :: cs) with
    | some r => some r
    | none => changedSearch cs

/-- The lines printed by `install_or_update` and its returned triple
`(success, changed_count, time_str)`. -/
structure InstallResult where
  prints : List String
  success : Bool
  changed : Nat
  time : Option String
deriving DecidableEq

/-- `install_or_update` from src/Update.py, embedded over the process result
`(rc, out, err)` of `npm install -g pkg`.  `changed` is `int` of group 1 of
the search (a digit run, hence nonnegative — the `except` fallback in the
source is unreachable), defaulting to 0 with no time token when the output is
empty or the pattern finds no match. -/
def install_or_update (rc : Int) (out err : String) : InstallResult :=
  if rc = 0 then
    let parsed :=
      if out = "" then ((0 : Nat), (none : Option String))
      else
        match changedSearch out.data with
        | some r => r
        | none => ((0 : Nat), (none : Option String))
    { prints := ["Installing/updating …", "Done.",
        match parsed.2 with
        | some ts => "Changed packages: " ++ toString parsed.1 ++ " (in " ++ ts ++ ")"
        | none => "Changed packages: " ++ toString parsed.1],
      success := true, changed := parsed.1, time := parsed.2 }
  else
    { prints := ["Installing/updating …", "Update failed:"] ++
        (if err ≠ "" then [err] else if out ≠ "" then [out] else []),
      success := false, changed := 0, time := none }

/-- C8: on exit 0, install_or_update succeeds with the changed count taken
from the first match of the changed-packages pattern (3 with the time token
"2.1s" for output "changed 3 packages in 2.1s") and falls back to 0 with no
time token when the pattern finds no match; on non-zero exit it prints the
error text (or the output when the error text is empty) and returns
(False, 0, None). -/
theorem C8_install_parse (rc : Int) (out err : String) :
    (rc = 0 →
      (install_or_update rc out err).success = true ∧
      (install_or_update rc out err).changed =
        (match changedSearch out.data with
         | some r => r.1
         | none => 0) ∧
      (install_or_update rc out err).time =
        (match changedSearch out.data with
         | some r => r.2
         | none => none)) ∧
    (rc ≠ 0 →
      (install_or_update rc out err).success = false ∧
      (install_or_update rc out err).changed = 0 ∧
      (install_or_update rc out err).time = none ∧
      (err ≠ "" → err ∈ (install_or_update rc out err).prints) ∧
      (err = "" → out ≠ "" → out ∈ (install_or_update rc out err).prints)) ∧
    changedSearch "changed 3 packages in 2.1s".data = some (3, some "2.1s") := by
  refine ⟨?_, ?_, by decide⟩
  · intro h
    subst h
    by_cases ho : out = ""
    · subst ho
      exact ⟨rfl, rfl, rfl⟩
    · refine ⟨rfl, ?_, ?_⟩ <;>
        · unfold install_or_update
          rcases hcs : changedSearch out.data with _ | r <;>
            simp [ho, hcs]
  · intro h
    unfold install_or_update
    rw [if_neg h]
    refine ⟨rfl, rfl, rfl, ?_, ?_⟩
    · intro he
      simp [he]
    · intro he ho
      simp [he, ho]

theorem C8_witness :
    (install_or_update 0 "changed 3 packages in 2.1s" "").success = true ∧
    (install_or_update 0 "changed 3 packages in 2.1s" "").changed = 3 ∧
    (install_or_update 0 "changed 3 packages in 2.1s" "").time = some "2.1s" := by
  obtain ⟨h1, h2, h3⟩ := (C8_install_parse 0 "changed 3 packages in 2.1s" "").1 rfl
  exact ⟨h1, h2.trans (by decide), h3.trans (by decide)⟩

/-- External collaborators of `update_target`: the per-package outcome of
`get_latest_version`, the process result of `npm install -g pkg`, and the
map `get_installed_global_map` returns when re-read after a successful
install. -/
structure World where
  latestOf : String → Option String
  installRes : String → Int × String × String
  mapAfter : List (String × String)

/-- The first loop of `update_target`: the first candidate present in the
installed map wins, with its version. -/
def findInstalled : List String → List (String × String) → Option (String × String)
  | [], _ => none
  | c :: rest, m =>
    match m.lookup c with
    | some v => some (c, v)
    | none => findInstalled rest m

/-- The second loop of `update_target`: the first candidate whose
`get_latest_version` result is truthy (`if v:` — neither None nor empty)
becomes the chosen registry name, with that latest version. -/
def findLatest (latestOf : String → Option String) :
    List String → Option (String × String)
  | [] => none
  | c :: rest =>
    match latestOf c with
    | some v => if v ≠ "" then some (c, v) else findLatest latestOf rest
    | none => findLatest latestOf rest

/-- What one `update_target` run does: the status lines printed and the
packages for which the install command was issued.  (The source's
`maybe_confirm` reads input only when the static `CONFIRM_BEFORE_UPDATE`
toggle is true; it is false in the source and prints nothing.) -/
structure Trace where
  prints : List String
  installs : List String
deriving DecidableEq

/-- `update_target` from src/Update.py, embedded over the display name, the
candidate alias list, the installed map passed in, and the `World` of
external call results. -/
def update_target (display : String) (candidates : List String)
    (installed_map : List (String × String)) (w : World) : Trace :=
  let header := "\n— " ++ display ++ " —"
  let inst := findInstalled candidates installed_map
  let latest := findLatest w.latestOf candidates
  let installed_ver : Option String := inst.map Prod.snd
  let curLine := "Current " ++ display ++ " version: " ++
    (match installed_ver with
     | some v => if v ≠ "" then v else "Not installed"
     | none => "Not installed")
  let latLine := "Latest " ++ display ++ " version: " ++
    (match latest with
     | some (_, v) => if v ≠ "" then v else "Unknown"
     | none => "Unknown")
  match latest with
  | none =>
    ⟨[header, curLine, latLine,
      "Warning: could not resolve latest registry version. Check package name."],
      []⟩
  | some (chosen, lv) =>
    if is_outdated installed_ver (some lv) then
      let res := w.installRes chosen
      let ir := install_or_update res.1 res.2.1 res.2.2
      ⟨[header, curLine, latLine] ++ ir.prints ++
        (if ir.success then
          ["Now installed: " ++ display ++ " " ++
            ((w.mapAfter.lookup chosen).getD "Unknown")]
         else []),
        [chosen]⟩
    else
      ⟨[header, curLine, latLine, "Already up to date."], []⟩

/-- C5: the installed-name scan and the latest-version scan are independent —
whatever alias the installed scan found, any install issued targets the first
candidate whose registry lookup returned a truthy value, and the current-
version line always reports the installed scan's result; in the cross-alias
scenario (only "foo" installed at 1.0.0, only "@scope/foo" resolving 1.1.0)
update_target reports both found values and installs "@scope/foo". -/
theorem C5_independent_scans :
    (∀ (display : String) (cands : List String) (m : List (String × String))
        (w : World) (pkg : String),
      pkg ∈ (update_target display cands m w).installs →
      (findLatest w.latestOf cands).map Prod.fst = some pkg) ∧
    (∀ (display : String) (cands : List String) (m : List (String × String))
        (w : World),
      ("Current " ++ display ++ " version: " ++
        (match (findInstalled cands m).map Prod.snd with
         | some v => if v ≠ "" then v else "Not installed"
         | none => "Not installed")) ∈ (update_target display cands m w).prints) ∧
    (let w : World :=
      ⟨fun p => if p == "@scope/foo" then some "1.1.0" else none,
        fun _ => (0, "", ""), []⟩
     let tr := update_target "Foo" ["@scope/foo", "foo"] [("foo", "1.0.0")] w
     "Current Foo version: 1.0.0" ∈ tr.prints ∧
     "Latest Foo version: 1.1.0" ∈ tr.prints ∧
     tr.installs = ["@scope/foo"]) := by
  refine ⟨?_, ?_, by decide⟩
  · intro display cands m w pkg hmem
    rcases hfl : findLatest w.latestOf cands with _ | ⟨c, lv⟩
    · simp [update_target, hfl] at hmem
    · by_cases hod :
        is_outdated ((findInstalled cands m).map Prod.snd) (some lv) = true
      · simp [update_target, hfl, hod] at hmem
        subst hmem
        rfl
      · rw [Bool.not_eq_true] at hod
        simp [update_target, hfl, hod] at hmem
  · intro display cands m w
    rcases hfl : findLatest w.latestOf cands with _ | ⟨c, lv⟩
    · simp [update_target, hfl]
    · by_cases hod :
        is_outdated ((findInstalled cands m).map Prod.snd) (some lv) = true
      · simp [update_target, hfl, hod]
      · rw [Bool.not_eq_true] at hod
        simp [update_target, hfl, hod]

theorem C5_witness :
    (findLatest
      (fun p => if p == "@scope/foo" then some "1.1.0" else none)
      ["@scope/foo", "foo"]).map Prod.fst = some "@scope/foo" :=
  C5_independent_scans.1 "Foo" ["@scope/foo", "foo"] [("foo", "1.0.0")]
    ⟨fun p => if p == "@scope/foo" then some "1.1.0" else none,
      fun _ => (0, "", ""), []⟩ "@scope/foo" (by decide)

/-- C6: update_target issues an install only when some candidate resolved a
truthy registry value and is_outdated holds on the found versions; when no
registry name resolves it prints the warning and installs nothing; when the
installed version is not outdated it prints "Already up to date." and
installs nothing. -/
theorem C6_install_guard (display : String) (cands : List String)
    (m : List (String × String)) (w : World) :
    ((update_target display cands m w).installs ≠ [] →
      ∃ c lv, findLatest w.latestOf cands = some (c, lv) ∧
        is_outdated ((findInstalled cands m).map Prod.snd) (some lv) = true) ∧
    (findLatest w.latestOf cands = none →
      (update_target display cands m w).installs = [] ∧
      "Warning: could not resolve latest registry version. Check package name."
        ∈ (update_target display cands m w).prints) ∧
    (∀ c lv, findLatest w.latestOf cands = some (c, lv) →
      is_outdated ((findInstalled cands m).map Prod.snd) (some lv) = false →
      (update_target display cands m w).installs = [] ∧
      "Already up to date." ∈ (update_target display cands m w).prints) := by
  refine ⟨?_, ?_, ?_⟩
  · intro hne
    rcases hfl : findLatest w.latestOf cands with _ | ⟨c, lv⟩
    · exact absurd (by simp [update_target, hfl]) hne
    · by_cases hod :
        is_outdated ((findInstalled cands m).map Prod.snd) (some lv) = true
      · exact ⟨c, lv, rfl, hod⟩
      · rw [Bool.not_eq_true] at hod
        exact absurd (by simp [update_target, hfl, hod]) hne
  · intro hfl
    constructor
    · simp [update_target, hfl]
    · simp [update_target, hfl]
  · intro c lv hfl hod
    constructor
    · simp [update_target, hfl, hod]
    · simp [update_target, hfl, hod]

theorem C6_witness :
    (update_target "Foo" ["foo"] []
      ⟨fun _ => none, fun _ => (0, "", ""), []⟩).installs = [] ∧
    "Warning: could not resolve latest registry version. Check package name."
      ∈ (update_target "Foo" ["foo"] []
          ⟨fun _ => none, fun _ => (0, "", ""), []⟩).prints :=
  (C6_install_guard "Foo" ["foo"] []
    ⟨fun _ => none, fun _ => (0, "", ""), []⟩).2.1 rfl
